import Mathlib

/-!
# Verification of the reunion-prompt-admin version-lifecycle core

Shallow embedding of the repository's persistence functions
(`functions/src/index.ts`) and of the client state machine
(`app/prompts/manager.tsx`), together with proofs about the claims of the
specification.

The SQLite/libSQL database is modelled as a list of rows for the
`prompt_versions` table plus a list of rows for the `prompt_types`
table.  Each `db.execute` in the source is an autocommitted statement,
so each one is one state transition in the model.  Row ids are the
integer primary keys assigned in insertion order; the callable API
exchanges them as strings (`String(row.id)` in the source).
-/

namespace ReunionAdmin

/-- A row of the `prompt_versions` table.  `rowid` is the integer primary
key; the callable surface renders it as a string. -/
structure VersionRow where
  rowid : Nat
  prompt_type_id : String
  version : Nat
  content : String
  is_active : Bool
  created_at : Option String
  deriving Repr, DecidableEq

/-- The string form of a row id, as produced by `String(row.id)`. -/
def VersionRow.idStr (r : VersionRow) : String :=
  toString r.rowid

/-- A row of the `prompt_types` table. -/
structure TypeRow where
  id : String
  name : String
  description : String
  deriving Repr, DecidableEq

/-- The `prompt_versions` table state: its rows (in insertion order, so
list order coincides with `rowid` order) and the next auto-increment id. -/
structure DB where
  rows : List VersionRow
  nextId : Nat
  deriving Repr, DecidableEq

/-- `UPDATE prompt_versions SET content = ? WHERE id = ?` with a string
parameter for the integer `id` column (SQLite coerces the parameter by
column affinity, so it matches the row whose id prints as the string). -/
def sqlUpdateContent (db : DB) (newContent : String) (targetVersionId : String) : DB :=
  { db with rows := db.rows.map fun r =>
      if r.idStr == targetVersionId then { r with content := newContent } else r }

/-- Rows of one prompt type. -/
def versionsOf (db : DB) (promptTypeId : String) : List VersionRow :=
  db.rows.filter fun r => r.prompt_type_id == promptTypeId

/-- `SELECT COALESCE(MAX(version), 0) FROM prompt_versions WHERE
prompt_type_id = ?`. -/
def maxVersionNum (db : DB) (promptTypeId : String) : Nat :=
  (versionsOf db promptTypeId).foldr (fun r m => max r.version m) 0

/-- `ORDER BY id DESC LIMIT 1` over a result set: the row with the largest
id among the matches. -/
def selectMaxByRowid (rows : List VersionRow) : Option VersionRow :=
  rows.foldl
    (fun acc r =>
      match acc with
      | none => some r
      | some a => if a.rowid ≤ r.rowid then some r else some a)
    none

/-- The version record returned to the client by `createPromptVersion`. -/
structure CreatedVersion where
  id : String
  promptTypeId : String
  version : Nat
  content : String
  isActive : Bool
  createdAt : Option String
  deriving Repr, DecidableEq

/-- `updatePromptVersion` (and its alias `updatePrompt`):
`targetVersionId = promptVersionId ?? promptId`; a nullish
`promptVersionId` falls back to `promptId`, then `!targetVersionId`
rejects `undefined` and the empty string; otherwise the SQL UPDATE runs
and the call acknowledges success whether or not any row matched. -/
def updatePromptVersion (db : DB) (promptVersionId promptId : Option String)
    (newContent : String) : Except String DB :=
  let targetVersionId :=
    match promptVersionId with
    | some v => some v
    | none => promptId
  match targetVersionId with
  | none =>
      Except.error "Invalid arguments. Expecting { promptVersionId: string, newContent: string }."
  | some tid =>
      if tid == "" then
        Except.error "Invalid arguments. Expecting { promptVersionId: string, newContent: string }."
      else
        Except.ok (sqlUpdateContent db newContent tid)

/-- `createPromptVersion`: rejects a falsy `promptTypeId`; computes
`COALESCE(MAX(version), 0) + 1`, inserts the new row with `is_active = 0`,
then re-selects the created row by `(prompt_type_id, version)` ordered by
id descending. -/
def createPromptVersion (db : DB) (promptTypeId : String)
    (baseContent : Option String) : Except String (DB × CreatedVersion) :=
  if promptTypeId == "" then
    Except.error "Invalid arguments. Expecting { promptTypeId: string }."
  else
    let nextVersion := maxVersionNum db promptTypeId + 1
    let content := baseContent.getD ""
    let newRow : VersionRow :=
      { rowid := db.nextId
        prompt_type_id := promptTypeId
        version := nextVersion
        content := content
        is_active := false
        created_at := none }
    let db2 : DB := { rows := db.rows ++ [newRow], nextId := db.nextId + 1 }
    match selectMaxByRowid (db2.rows.filter fun r =>
        r.prompt_type_id == promptTypeId && r.version == nextVersion) with
    | none => Except.error "Failed to load created prompt version."
    | some row =>
        Except.ok (db2,
          { id := row.idStr
            promptTypeId := row.prompt_type_id
            version := row.version
            content := row.content
            isActive := row.is_active
            createdAt := row.created_at })

/-- First statement of `setActivePromptVersion`:
`UPDATE prompt_versions SET is_active = FALSE WHERE prompt_type_id = ?`.
It is its own autocommitted `db.execute`, so the state it produces is
durable. -/
def setActiveClear (db : DB) (promptTypeId : String) : DB :=
  { db with rows := db.rows.map fun r =>
      if r.prompt_type_id == promptTypeId then { r with is_active := false } else r }

/-- Second statement of `setActivePromptVersion`:
`UPDATE prompt_versions SET is_active = TRUE WHERE id = ? AND
prompt_type_id = ?`. -/
def setActiveSet (db : DB) (promptVersionId promptTypeId : String) : DB :=
  { db with rows := db.rows.map fun r =>
      if r.idStr == promptVersionId && r.prompt_type_id == promptTypeId then
        { r with is_active := true }
      else r }

/-- `setActivePromptVersion`: rejects falsy ids, then runs the two UPDATE
statements in sequence (no transaction in the source) and acknowledges
success regardless of how many rows each statement touched. -/
def setActivePromptVersion (db : DB) (promptTypeId promptVersionId : String) :
    Except String DB :=
  if promptTypeId == "" || promptVersionId == "" then
    Except.error "Invalid arguments. Expecting { promptTypeId: string, promptVersionId: string }."
  else
    Except.ok (setActiveSet (setActiveClear db promptTypeId) promptVersionId promptTypeId)

/-- The durably visible intermediate state of `setActivePromptVersion`:
after the first `db.execute` commits and before the second runs. -/
def setActiveMid (db : DB) (promptTypeId : String) : DB :=
  setActiveClear db promptTypeId

/-- Number of rows of a type whose active flag is set. -/
def activeCount (db : DB) (promptTypeId : String) : Nat :=
  db.rows.countP fun r => r.prompt_type_id == promptTypeId && r.is_active

/-- The at-most-one-active-per-type invariant. -/
def ActiveInv (db : DB) : Prop :=
  ∀ t : String, activeCount db t ≤ 1

/-- Row ids are pairwise distinct: `id` is the integer primary key, and
distinct integers render to distinct decimal strings, so the string forms
exchanged with the API are pairwise distinct as well. -/
def UniqueIds (db : DB) : Prop :=
  (db.rows.map VersionRow.idStr).Nodup

/-! ## Client-side model (`app/prompts/manager.tsx`) -/

/-- The client-side `PromptVersion` interface (also the shape of the
versions in the `getPromptDashboardData` payload). -/
structure PromptVersion where
  id : String
  version : Nat
  content : String
  isActive : Bool
  createdAt : Option String
  deriving Repr, DecidableEq

/-- The client-side `PromptType` interface (also the shape of the types in
the `getPromptDashboardData` payload). -/
structure PromptType where
  id : String
  title : String
  description : String
  versions : List PromptVersion
  deriving Repr, DecidableEq

/-- The `EditorTarget` interface: the Edit Session's target and captured
original-content snapshot. -/
structure EditorTarget where
  promptTypeId : String
  promptTypeTitle : String
  promptVersionId : String
  promptVersionNumber : Nat
  originalContent : String
  deriving Repr, DecidableEq

/-- The `versionSort` select values: `'active' | 'latest' | 'oldest'`. -/
inductive VersionSortMode where
  | active
  | latest
  | oldest
  deriving Repr, DecidableEq

/-- JavaScript `String.prototype.toLowerCase` on the character list. -/
def strToLower (s : String) : String :=
  ⟨s.data.map Char.toLower⟩

/-- JavaScript `String.prototype.trim`. -/
def strTrim (s : String) : String :=
  ⟨((s.data.dropWhile Char.isWhitespace).reverse.dropWhile Char.isWhitespace).reverse⟩

/-- Containment of `sub` in `hay` over character lists
(JavaScript `String.prototype.includes`). -/
def charsContains (sub : List Char) : List Char → Bool
  | [] => sub.isEmpty
  | c :: t => sub.isPrefixOf (c :: t) || charsContains sub t

/-- `s.includes(q)` for strings. -/
def strIncludes (s q : String) : Bool :=
  charsContains q.data s.data

/-- The version-search predicate of `filteredVersions`:
`String(version.version).includes(q) || version.content.toLowerCase()
.includes(q) || (version.isActive && 'active'.includes(q))`. -/
def versionMatchesQuery (q : String) (v : PromptVersion) : Bool :=
  strIncludes (toString v.version) q ||
  strIncludes (strToLower v.content) q ||
  (v.isActive && strIncludes "active" q)

/-- The sort comparator of `filteredVersions`, returning the JavaScript
comparator's number: for `'active'`, active-flag descending then version
number descending (`b.version - a.version`); for `'latest'`, version
descending; for `'oldest'`, version ascending. -/
def versionComparator (mode : VersionSortMode) (a b : PromptVersion) : Int :=
  match mode with
  | .active =>
      if a.isActive != b.isActive then (if a.isActive then -1 else 1)
      else (b.version : Int) - (a.version : Int)
  | .latest => (b.version : Int) - (a.version : Int)
  | .oldest => (a.version : Int) - (b.version : Int)

/-- The "comes not after" relation induced by the comparator. -/
def versionLE (mode : VersionSortMode) (a b : PromptVersion) : Prop :=
  versionComparator mode a b ≤ 0

instance (mode : VersionSortMode) : DecidableRel (versionLE mode) :=
  fun a b => inferInstanceAs (Decidable (versionComparator mode a b ≤ 0))

/-- `[...searched].sort(comparator)`.  JavaScript `Array.prototype.sort`
is stable and sorts by the comparator; since each comparator here induces
a strict weak order, the result equals the stable insertion sort under the
comparator's non-strict relation. -/
def sortVersions (mode : VersionSortMode) (vs : List PromptVersion) : List PromptVersion :=
  List.insertionSort (versionLE mode) vs

/-- The spec's "active-first" ordering: primary key active flag descending
(active before inactive), secondary key version number descending. -/
def activeFirstKey (a b : PromptVersion) : Prop :=
  (b.isActive = true → a.isActive = true) ∧ (a.isActive = b.isActive → b.version ≤ a.version)

/-- `filteredVersions` (the search is applied before the sort; the query
is trimmed and lowercased first). -/
def filteredVersions (selectedType : Option PromptType) (versionSearchQuery : String)
    (versionSort : VersionSortMode) : List PromptVersion :=
  match selectedType with
  | none => []
  | some ty =>
      let q := strToLower (strTrim versionSearchQuery)
      let searched :=
        if q == "" then ty.versions
        else ty.versions.filter (versionMatchesQuery q)
      sortVersions versionSort searched

/-- The component state of `PromptManager` that the lifecycle logic
touches (rendering-only state is omitted). -/
structure ClientState where
  promptTypes : List PromptType
  selectedTypeId : Option String
  selectedVersionId : Option String
  isEditorOpen : Bool
  editorTarget : Option EditorTarget
  modalContent : String
  error : Option String
  isSavingModal : Bool
  versionSearchQuery : String
  versionSort : VersionSortMode
  deriving Repr, DecidableEq

/-- `isModalDirty`: the session is open, has a target, and the draft
differs from the captured original content. -/
def isModalDirty (s : ClientState) : Bool :=
  s.isEditorOpen &&
    match s.editorTarget with
    | some t => s.modalContent != t.originalContent
    | none => false

/-- `confirmDiscardEditorChanges`: returns `true` immediately when not
dirty; otherwise returns the user's answer to `window.confirm`
(modelled as the `userConfirms` parameter). -/
def confirmDiscardEditorChanges (s : ClientState) (userConfirms : Bool) : Bool :=
  if isModalDirty s = false then true else userConfirms

/-- `handleSelectVersion`: guarded by the discard confirmation; when the
guard passes, selects the version and closes the editor. -/
def handleSelectVersion (s : ClientState) (userConfirms : Bool) (versionId : String) :
    ClientState :=
  if confirmDiscardEditorChanges s userConfirms = false then s
  else
    { s with
      selectedVersionId := some versionId
      isEditorOpen := false
      editorTarget := none
      error := none }

/-- `handleSelectType`: guarded by the discard confirmation; when the
guard passes, selects the type, its first version, resets the version
search and sort, and closes the editor. -/
def handleSelectType (s : ClientState) (userConfirms : Bool) (ty : PromptType) :
    ClientState :=
  if confirmDiscardEditorChanges s userConfirms = false then s
  else
    { s with
      selectedTypeId := some ty.id
      selectedVersionId := (ty.versions.head?).map PromptVersion.id
      versionSearchQuery := ""
      versionSort := .active
      isEditorOpen := false
      editorTarget := none
      error := none }

/-- `handleSaveModal`: no-op without an editor target; otherwise the
`updatePromptVersion` call either succeeds (`serverOk = true`) — content
applied to exactly the target version of the target type, editor closed —
or fails — only the error slot is set (the `finally` clears
`isSavingModal` in both branches).  The asynchronous reconciliation
refetch fired on success is modelled separately. -/
def handleSaveModal (s : ClientState) (serverOk : Bool) (failMsg : String) : ClientState :=
  match s.editorTarget with
  | none => s
  | some tgt =>
      if serverOk then
        { s with
          promptTypes := s.promptTypes.map fun ty =>
            if ty.id != tgt.promptTypeId then ty
            else
              { ty with
                versions := ty.versions.map fun v =>
                  if v.id == tgt.promptVersionId then { v with content := s.modalContent }
                  else v }
          isEditorOpen := false
          editorTarget := none
          error := none
          isSavingModal := false }
      else
        { s with error := some failMsg, isSavingModal := false }

/-! ## `getPromptDashboardData` payload construction -/

/-- The payload record built from one `prompt_versions` row. -/
def payloadOfRow (r : VersionRow) : PromptVersion :=
  { id := r.idStr
    version := r.version
    content := r.content
    isActive := r.is_active
    createdAt := r.created_at }

/-- Strict lexicographic order on character lists, modelling SQLite's
BINARY collation for TEXT columns. -/
def charListLt : List Char → List Char → Bool
  | [], [] => false
  | [], _ :: _ => true
  | _ :: _, [] => false
  | a :: as, b :: bs => if a < b then true else if b < a then false else charListLt as bs

/-- `ORDER BY id ASC` of the `prompt_types` query. -/
def typeQueryLE (a b : TypeRow) : Prop :=
  charListLt b.id.data a.id.data = false

instance : DecidableRel typeQueryLE :=
  fun a b => inferInstanceAs (Decidable (charListLt b.id.data a.id.data = false))

/-- `ORDER BY prompt_type_id ASC, is_active DESC, version DESC, id DESC`
of the `prompt_versions` query, as a non-strict ordering. -/
def versionQueryLEb (a b : VersionRow) : Bool :=
  if a.prompt_type_id != b.prompt_type_id then
    charListLt a.prompt_type_id.data b.prompt_type_id.data
  else if a.is_active != b.is_active then a.is_active
  else if a.version != b.version then decide (b.version < a.version)
  else decide (b.rowid ≤ a.rowid)

/-- The `prompt_versions` query ordering as a relation. -/
def versionQueryLE (a b : VersionRow) : Prop :=
  versionQueryLEb a b = true

instance : DecidableRel versionQueryLE :=
  fun a b => inferInstanceAs (Decidable (versionQueryLEb a b = true))

/-- `typeMap.set(id, ...)` on an insertion-ordered map modelled as a list:
an existing key is overwritten in place, a new key is appended. -/
def mapSet (m : List PromptType) (t : PromptType) : List PromptType :=
  if m.any (fun x => x.id == t.id) then
    m.map fun x => if x.id == t.id then t else x
  else m ++ [t]

/-- The per-version step of the payload fold: `typeMap.get(promptTypeId)`
followed by `continue` when absent, or `type.versions.push(...)`. -/
def pushVersion (m : List PromptType) (r : VersionRow) : List PromptType :=
  m.map fun ty =>
    if ty.id == r.prompt_type_id then { ty with versions := ty.versions ++ [payloadOfRow r] }
    else ty

/-- `getPromptDashboardData`: runs the two ordered queries, folds the type
rows into the insertion-ordered map, attaches each version row to its type
(rows whose `prompt_type_id` matches no fetched type are skipped), and
finally re-sorts each type's versions active-first. -/
def getPromptDashboardData (types : List TypeRow) (db : DB) : List PromptType :=
  let typesSorted := List.insertionSort typeQueryLE types
  let versionsSorted := List.insertionSort versionQueryLE db.rows
  let typeMap0 := typesSorted.foldl
    (fun m row => mapSet m
      { id := row.id, title := row.name, description := row.description, versions := [] })
    []
  let typeMap := versionsSorted.foldl pushVersion typeMap0
  typeMap.map fun pt => { pt with versions := sortVersions .active pt.versions }

/-! ## Derived states of the server operations -/

/-- The row inserted by `createPromptVersion`. -/
def newRowOf (db : DB) (tid : String) (bc : Option String) : VersionRow :=
  { rowid := db.nextId
    prompt_type_id := tid
    version := maxVersionNum db tid + 1
    content := bc.getD ""
    is_active := false
    created_at := none }

/-- The database state after a successful `createPromptVersion`. -/
def dbAfterCreate (db : DB) (tid : String) (bc : Option String) : DB :=
  { rows := db.rows ++ [newRowOf db tid bc], nextId := db.nextId + 1 }

/-- The payload returned by a successful `createPromptVersion`. -/
def createdOf (db : DB) (tid : String) (bc : Option String) : CreatedVersion :=
  { id := toString db.nextId
    promptTypeId := tid
    version := maxVersionNum db tid + 1
    content := bc.getD ""
    isActive := false
    createdAt := none }

/-! ## Concrete fixtures -/

/-- A version row of type `t1` that is active. -/
def rowT1Active : VersionRow :=
  { rowid := 1, prompt_type_id := "t1", version := 1, content := "A",
    is_active := true, created_at := none }

/-- A version row of type `t2` that is active. -/
def rowT2Active : VersionRow :=
  { rowid := 2, prompt_type_id := "t2", version := 1, content := "B",
    is_active := true, created_at := none }

/-- A second, inactive version row of type `t1`. -/
def rowT1Inactive : VersionRow :=
  { rowid := 2, prompt_type_id := "t1", version := 2, content := "B",
    is_active := false, created_at := none }

/-- An inactive version row of type `t1` with rowid 1. -/
def rowT1Solo : VersionRow :=
  { rowid := 1, prompt_type_id := "t1", version := 1, content := "A",
    is_active := false, created_at := none }

/-- A version row whose `prompt_type_id` matches no `prompt_types` row. -/
def rowOrphan : VersionRow :=
  { rowid := 2, prompt_type_id := "zz", version := 1, content := "B",
    is_active := false, created_at := none }

/-- Fixture for the mismatch scenario: `t1` and `t2` each have one active
version. -/
def dbMismatch : DB := { rows := [rowT1Active, rowT2Active], nextId := 3 }

/-- Fixture: type `t1` with versions 1 (active) and 2 (inactive). -/
def dbTwoVersions : DB := { rows := [rowT1Active, rowT1Inactive], nextId := 3 }

/-- Fixture: a single inactive version of type `t1`. -/
def dbSolo : DB := { rows := [rowT1Solo], nextId := 2 }

/-- Fixture: one `prompt_types` row. -/
def demoTypeRows : List TypeRow := [{ id := "t1", name := "T", description := "d" }]

/-- Fixture: one well-owned version row and one orphan row. -/
def dbWithOrphan : DB := { rows := [rowT1Active, rowOrphan], nextId := 3 }

/-- The payload type the dashboard builds from `demoTypeRows` and
`dbWithOrphan` (the orphan row is dropped). -/
def demoPayloadType : PromptType :=
  { id := "t1", title := "T", description := "d", versions := [payloadOfRow rowT1Active] }

/-- Client-side versions numbered 1, 2, 3 with version 2 active. -/
def demoV1 : PromptVersion :=
  { id := "1", version := 1, content := "one", isActive := false, createdAt := none }

/-- See `demoV1`. -/
def demoV2 : PromptVersion :=
  { id := "2", version := 2, content := "two", isActive := true, createdAt := none }

/-- See `demoV1`. -/
def demoV3 : PromptVersion :=
  { id := "3", version := 3, content := "three", isActive := false, createdAt := none }

/-- A client-side type holding `demoV1`, `demoV2`, `demoV3`. -/
def demoClientType : PromptType :=
  { id := "t1", title := "T", description := "d", versions := [demoV1, demoV2, demoV3] }

/-- An editor target for `demoV1` with original content `"A"`. -/
def demoTarget : EditorTarget :=
  { promptTypeId := "t1", promptTypeTitle := "T", promptVersionId := "1",
    promptVersionNumber := 1, originalContent := "A" }

/-- A client state whose Edit Session is Open and dirty (draft `"B"`,
original `"A"`). -/
def demoDirtyState : ClientState :=
  { promptTypes := [demoClientType]
    selectedTypeId := some "t1"
    selectedVersionId := some "1"
    isEditorOpen := true
    editorTarget := some demoTarget
    modalContent := "B"
    error := none
    isSavingModal := false
    versionSearchQuery := ""
    versionSort := .active }

/-! ## Helper lemmas -/

theorem le_foldr_maxVersion (l : List VersionRow) :
    ∀ r ∈ l, r.version ≤ l.foldr (fun r m => max r.version m) 0 := by
  induction l with
  | nil => intro r hr; cases hr
  | cons x t ih =>
    intro r hr
    rcases List.mem_cons.mp hr with h | h
    · subst h
      exact Nat.le_max_left _ _
    · exact Nat.le_trans (ih r h) (Nat.le_max_right _ _)

theorem foldr_maxVersion_attained (l : List VersionRow) (h : l ≠ []) :
    ∃ r ∈ l, l.foldr (fun r m => max r.version m) 0 = r.version := by
  induction l with
  | nil => exact absurd rfl h
  | cons x t ih =>
    cases t with
    | nil => exact ⟨x, List.mem_cons_self x [], by simp⟩
    | cons y u =>
      rcases ih (by simp) with ⟨r, hr, hfold⟩
      by_cases hle : ((y :: u).foldr (fun r m => max r.version m) 0) ≤ x.version
      · refine ⟨x, List.mem_cons_self x _, ?_⟩
        show max x.version ((y :: u).foldr (fun r m => max r.version m) 0) = x.version
        exact Nat.max_eq_left hle
      · refine ⟨r, List.mem_cons_of_mem x hr, ?_⟩
        have hx : x.version ≤ (y :: u).foldr (fun r m => max r.version m) 0 :=
          Nat.le_of_not_le hle
        show max x.version ((y :: u).foldr (fun r m => max r.version m) 0) = r.version
        rw [Nat.max_eq_right hx]
        exact hfold

/-- Every existing version number of a type is at most the queried
maximum. -/
theorem version_le_maxVersionNum (db : DB) (tid : String) :
    ∀ r ∈ versionsOf db tid, r.version ≤ maxVersionNum db tid :=
  le_foldr_maxVersion (versionsOf db tid)

/-- When the type has rows, the queried maximum is attained. -/
theorem maxVersionNum_attained (db : DB) (tid : String) (h : versionsOf db tid ≠ []) :
    ∃ r ∈ versionsOf db tid, maxVersionNum db tid = r.version :=
  foldr_maxVersion_attained (versionsOf db tid) h

/-- Characterization of `createPromptVersion` on a non-empty type id: it
never fails, appends exactly `newRowOf`, and returns exactly
`createdOf`. -/
theorem createPromptVersion_eq (db : DB) (tid : String) (bc : Option String)
    (h : ¬ tid = "") :
    createPromptVersion db tid bc = Except.ok (dbAfterCreate db tid bc, createdOf db tid bc) := by
  have hbeq : (tid == "") = false := by simpa using h
  have hfilter :
      (db.rows ++ [newRowOf db tid bc]).filter
        (fun r => r.prompt_type_id == tid && r.version == maxVersionNum db tid + 1) =
      [newRowOf db tid bc] := by
    rw [List.filter_append]
    have h1 : db.rows.filter
        (fun r => r.prompt_type_id == tid && r.version == maxVersionNum db tid + 1) = [] := by
      rw [List.filter_eq_nil_iff]
      intro r hr hpr
      simp only [Bool.and_eq_true, beq_iff_eq] at hpr
      have hmem : r ∈ versionsOf db tid :=
        List.mem_filter.mpr ⟨hr, by simp [hpr.1]⟩
      have hle := version_le_maxVersionNum db tid r hmem
      omega
    have h2 : [newRowOf db tid bc].filter
        (fun r => r.prompt_type_id == tid && r.version == maxVersionNum db tid + 1) =
        [newRowOf db tid bc] := by
      simp [newRowOf]
    rw [h1, h2, List.nil_append]
  unfold createPromptVersion
  rw [hbeq]
  simp only [Bool.false_eq_true, if_false]
  have hrw : (db.rows ++
      [({ rowid := db.nextId, prompt_type_id := tid, version := maxVersionNum db tid + 1,
          content := bc.getD "", is_active := false, created_at := none } : VersionRow)]).filter
        (fun r => r.prompt_type_id == tid && r.version == maxVersionNum db tid + 1) =
      [newRowOf db tid bc] := hfilter
  simp only [maxVersionNum, versionsOf] at hrw ⊢
  rw [hrw]
  simp [selectMaxByRowid, newRowOf, dbAfterCreate, createdOf, VersionRow.idStr,
    maxVersionNum, versionsOf]

/-- C3: the assigned version number is one plus the maximum existing
number for the type, or `1` when the type has no versions. -/
theorem C3_next_version_number (db : DB) (tid : String) (bc : Option String)
    (h : ¬ tid = "") :
    ∃ db2 v, createPromptVersion db tid bc = Except.ok (db2, v) ∧
      v.version = maxVersionNum db tid + 1 ∧
      (versionsOf db tid = [] → v.version = 1) ∧
      (∀ r ∈ versionsOf db tid, r.version < v.version) ∧
      (versionsOf db tid ≠ [] → ∃ r ∈ versionsOf db tid, v.version = r.version + 1) := by
  refine ⟨dbAfterCreate db tid bc, createdOf db tid bc, createPromptVersion_eq db tid bc h,
    rfl, ?_, ?_, ?_⟩
  · intro hnil
    simp [createdOf, maxVersionNum, hnil]
  · intro r hr
    have := version_le_maxVersionNum db tid r hr
    simp only [createdOf]
    omega
  · intro hne
    rcases maxVersionNum_attained db tid hne with ⟨r, hr, hmax⟩
    exact ⟨r, hr, by simp [createdOf, hmax]⟩

/-- Witness for C3 at a concrete database whose type `t1` holds versions
1 and 2. -/
theorem C3_next_version_number_witness :
    ∃ db2 v, createPromptVersion dbTwoVersions "t1" (some "seed") = Except.ok (db2, v) ∧
      v.version = maxVersionNum dbTwoVersions "t1" + 1 ∧
      (versionsOf dbTwoVersions "t1" = [] → v.version = 1) ∧
      (∀ r ∈ versionsOf dbTwoVersions "t1", r.version < v.version) ∧
      (versionsOf dbTwoVersions "t1" ≠ [] →
        ∃ r ∈ versionsOf dbTwoVersions "t1", v.version = r.version + 1) :=
  C3_next_version_number dbTwoVersions "t1" (some "seed") (by decide)

/-! ## Preservation of the at-most-one-active invariant -/

theorem activeCount_sqlUpdateContent (db : DB) (c vid t : String) :
    activeCount (sqlUpdateContent db c vid) t = activeCount db t := by
  unfold activeCount sqlUpdateContent
  rw [List.countP_map]
  apply List.countP_congr
  intro r hr
  by_cases h : (r.idStr == vid) = true
  · simp [Function.comp, h]
  · simp [Function.comp, h]

theorem activeCount_dbAfterCreate (db : DB) (tid : String) (bc : Option String) (t : String) :
    activeCount (dbAfterCreate db tid bc) t = activeCount db t := by
  unfold activeCount dbAfterCreate
  rw [List.countP_append]
  simp [newRowOf]

/-- The rows after the two UPDATE statements of `setActivePromptVersion`:
rows of the target type end with `is_active = (id = promptVersionId)`,
rows of other types are untouched. -/
theorem setActive_rows (db : DB) (tid vid : String) :
    (setActiveSet (setActiveClear db tid) vid tid).rows =
      db.rows.map fun r =>
        if r.prompt_type_id == tid then { r with is_active := (r.idStr == vid) } else r := by
  unfold setActiveSet setActiveClear
  simp only [List.map_map]
  apply List.map_congr_left
  intro r hr
  by_cases h : (r.prompt_type_id == tid) = true
  · by_cases h2 : (r.idStr == vid) = true
    · have h2' : toString r.rowid = vid := by simpa [VersionRow.idStr] using h2
      simp [Function.comp, h, VersionRow.idStr, h2']
    · have h2' : (toString r.rowid == vid) = false := by
        simpa [VersionRow.idStr] using h2
      have h2n : ¬ (toString r.rowid = vid) := by
        simpa [VersionRow.idStr] using h2
      simp [Function.comp, h, VersionRow.idStr, h2', h2n]
  · simp [Function.comp, h, VersionRow.idStr]

theorem activeCount_setActive_target (db : DB) (tid vid : String) (hU : UniqueIds db) :
    activeCount (setActiveSet (setActiveClear db tid) vid tid) tid ≤ 1 := by
  unfold activeCount
  rw [setActive_rows, List.countP_map]
  have hle : List.countP
      ((fun r => r.prompt_type_id == tid && r.is_active) ∘ fun r =>
        if r.prompt_type_id == tid then { r with is_active := (r.idStr == vid) } else r)
      db.rows ≤ List.countP (fun r => r.idStr == vid) db.rows := by
    apply List.countP_mono_left
    intro r hr hp
    by_cases h : (r.prompt_type_id == tid) = true
    · simpa [Function.comp, h] using hp
    · simp [Function.comp, h] at hp
  refine le_trans hle ?_
  have hcount : List.countP (fun r => r.idStr == vid) db.rows =
      List.count vid (db.rows.map VersionRow.idStr) := by
    rw [List.count_eq_countP, List.countP_map]
    rfl
  rw [hcount]
  exact List.nodup_iff_count_le_one.mp hU vid

theorem activeCount_setActive_other (db : DB) (tid vid t : String) (ht : t ≠ tid) :
    activeCount (setActiveSet (setActiveClear db tid) vid tid) t = activeCount db t := by
  unfold activeCount
  rw [setActive_rows, List.countP_map]
  apply List.countP_congr
  intro r hr
  by_cases h : (r.prompt_type_id == tid) = true
  · have hne : (r.prompt_type_id == t) = false := by
      rw [beq_eq_false_iff_ne]
      have h' : r.prompt_type_id = tid := by simpa using h
      rw [h']
      exact fun hh => ht hh.symm
    simp [Function.comp, h, hne]
  · simp [Function.comp, h]

/-- C1: after each of the three mutating operations the at-most-one-active
invariant still holds for every type, and `createPromptVersion` returns a
version with `isActive = false`. -/
theorem C1_active_invariant (db : DB) (hU : UniqueIds db) (hI : ActiveInv db) :
    (∀ c vid, ActiveInv (sqlUpdateContent db c vid)) ∧
    (∀ tid bc db2 v, createPromptVersion db tid bc = Except.ok (db2, v) →
      ActiveInv db2 ∧ v.isActive = false) ∧
    (∀ tid vid db2, setActivePromptVersion db tid vid = Except.ok db2 → ActiveInv db2) := by
  refine ⟨?_, ?_, ?_⟩
  · intro c vid t
    rw [activeCount_sqlUpdateContent]
    exact hI t
  · intro tid bc db2 v hok
    by_cases h : tid = ""
    · subst h
      simp [createPromptVersion] at hok
    · rw [createPromptVersion_eq db tid bc h] at hok
      have hpair : dbAfterCreate db tid bc = db2 ∧ createdOf db tid bc = v := by
        simpa using hok
      obtain ⟨hdb, hv⟩ := hpair
      constructor
      · intro t
        rw [← hdb, activeCount_dbAfterCreate]
        exact hI t
      · rw [← hv]
        rfl
  · intro tid vid db2 hok
    by_cases h : (tid == "" || vid == "") = true
    · simp [setActivePromptVersion, h] at hok
    · have hdb2 : setActiveSet (setActiveClear db tid) vid tid = db2 := by
        simpa [setActivePromptVersion, h] using hok
      intro t
      by_cases ht : t = tid
      · subst ht
        rw [← hdb2]
        exact activeCount_setActive_target db t vid hU
      · rw [← hdb2, activeCount_setActive_other db tid vid t ht]
        exact hI t

/-- Witness for C1: the invariant-preservation theorem applied to a
concrete database with two versions of one type, one of them active. -/
theorem C1_active_invariant_witness :
    (∀ c vid, ActiveInv (sqlUpdateContent dbTwoVersions c vid)) ∧
    (∀ tid bc db2 v, createPromptVersion dbTwoVersions tid bc = Except.ok (db2, v) →
      ActiveInv db2 ∧ v.isActive = false) ∧
    (∀ tid vid db2, setActivePromptVersion dbTwoVersions tid vid = Except.ok db2 →
      ActiveInv db2) :=
  C1_active_invariant dbTwoVersions
    (by
      show (dbTwoVersions.rows.map VersionRow.idStr).Nodup
      decide)
    (by
      intro t
      by_cases h : ("t1" == t) = true
      · simp [activeCount, dbTwoVersions, rowT1Active, rowT1Inactive, List.countP_cons, h]
      · simp [activeCount, dbTwoVersions, rowT1Active, rowT1Inactive, List.countP_cons, h])

/-- C2 as stated is false: `setActivePromptVersion dbMismatch "t1" "2"`
targets a version owned by `t2`, yet the call succeeds and changes state
(the previously active version of `t1` is deactivated, leaving zero active
versions). -/
theorem C2_mismatch_counterexample :
    (∀ r ∈ dbMismatch.rows, ¬(r.idStr = "2" ∧ r.prompt_type_id = "t1")) ∧
    ∃ db2, setActivePromptVersion dbMismatch "t1" "2" = Except.ok db2 ∧
      db2 ≠ dbMismatch ∧ activeCount db2 "t1" = 0 ∧ activeCount dbMismatch "t1" = 1 :=
  ⟨by decide, _, rfl, by decide, by decide, by decide⟩

/-- `setActivePromptVersion` on non-empty ids reduces to the two UPDATE
steps. -/
theorem setActivePromptVersion_ok (db : DB) (tid vid : String)
    (h : (tid == "" || vid == "") = false) :
    setActivePromptVersion db tid vid =
      Except.ok (setActiveSet (setActiveClear db tid) vid tid) := by
  show (if (tid == "" || vid == "") = true then
      (Except.error
        "Invalid arguments. Expecting { promptTypeId: string, promptVersionId: string }." :
        Except String DB)
    else Except.ok (setActiveSet (setActiveClear db tid) vid tid)) =
    Except.ok (setActiveSet (setActiveClear db tid) vid tid)
  simp [h]

/-- Two database states with the same rows and counter are equal. -/
theorem DB.eq_of_parts (a b : DB) (hr : a.rows = b.rows) (hn : a.nextId = b.nextId) :
    a = b := by
  cases a
  cases b
  cases hr
  cases hn
  rfl

/-- Members of the clear-all state come from members of the original
state with the active flag of the target type cleared. -/
theorem mem_setActiveClear_rows (db : DB) (tid : String) (x : VersionRow)
    (hx : x ∈ (setActiveClear db tid).rows) :
    ∃ r ∈ db.rows,
      (if r.prompt_type_id == tid then { r with is_active := false } else r) = x := by
  simpa only [setActiveClear, List.mem_map] using hx

/-- C2 amended: when the target version is not owned by the type (and both
ids are non-empty), the call succeeds anyway; the second UPDATE matches no
row, so the final state is the clear-all state — the type is left with
zero active versions and rows of other types are untouched. -/
theorem C2_mismatch_amended (db : DB) (tid vid : String) (ht : ¬ tid = "") (hv : ¬ vid = "")
    (hmis : ∀ r ∈ db.rows, ¬(r.idStr = vid ∧ r.prompt_type_id = tid)) :
    setActivePromptVersion db tid vid = Except.ok (setActiveClear db tid) ∧
    activeCount (setActiveClear db tid) tid = 0 ∧
    ∀ r ∈ db.rows, r.prompt_type_id ≠ tid → r ∈ (setActiveClear db tid).rows := by
  refine ⟨?_, ?_, ?_⟩
  · have hguard : (tid == "" || vid == "") = false := by
      rw [Bool.or_eq_false_iff]
      exact ⟨beq_eq_false_iff_ne.mpr ht, beq_eq_false_iff_ne.mpr hv⟩
    rw [setActivePromptVersion_ok db tid vid hguard]
    have hset : (setActiveSet (setActiveClear db tid) vid tid) = setActiveClear db tid := by
      unfold setActiveSet
      have hrows : (setActiveClear db tid).rows.map
          (fun r => if r.idStr == vid && r.prompt_type_id == tid then
            { r with is_active := true } else r) = (setActiveClear db tid).rows := by
        conv_rhs => rw [← List.map_id (setActiveClear db tid).rows]
        apply List.map_congr_left
        intro x hx
        rcases mem_setActiveClear_rows db tid x hx with ⟨r, hr, hfr⟩
        have hcondr : (r.idStr == vid && r.prompt_type_id == tid) = false := by
          by_cases hb : (r.idStr == vid) = true
          · have hf2 : (r.prompt_type_id == tid) = false := by
              rw [beq_eq_false_iff_ne]
              intro he
              exact hmis r hr ⟨by simpa using hb, he⟩
            simp [hf2]
          · simp [Bool.eq_false_iff.mpr hb]
        by_cases hf : (r.prompt_type_id == tid) = true
        · rw [if_pos hf] at hfr
          subst hfr
          simpa [VersionRow.idStr] using hcondr
        · rw [if_neg hf] at hfr
          subst hfr
          simp [hcondr]
      exact DB.eq_of_parts _ _ hrows rfl
    rw [hset]
  · unfold activeCount
    rw [List.countP_eq_zero]
    intro x hx
    rcases mem_setActiveClear_rows db tid x hx with ⟨r, hr, hfr⟩
    by_cases hf : (r.prompt_type_id == tid) = true
    · rw [if_pos hf] at hfr
      subst hfr
      simp
    · rw [if_neg hf] at hfr
      subst hfr
      simp [hf]
  · intro r hr hneq
    have hf : (r.prompt_type_id == tid) = false := beq_eq_false_iff_ne.mpr hneq
    show r ∈ (setActiveClear db tid).rows
    simp only [setActiveClear]
    refine List.mem_map.mpr ⟨r, hr, ?_⟩
    simp [hf]

/-- Witness for the amended C2 at the concrete mismatch database. -/
theorem C2_mismatch_amended_witness :
    setActivePromptVersion dbMismatch "t1" "2" = Except.ok (setActiveClear dbMismatch "t1") ∧
    activeCount (setActiveClear dbMismatch "t1") "t1" = 0 ∧
    ∀ r ∈ dbMismatch.rows, r.prompt_type_id ≠ "t1" → r ∈ (setActiveClear dbMismatch "t1").rows :=
  C2_mismatch_amended dbMismatch "t1" "2" (by decide) (by decide) (by decide)

/-- C4: the claim is right and the code is wrong.  The two UPDATE
statements of `setActivePromptVersion` are separate autocommitted
`db.execute` calls, so the cleared state is durably visible between them:
starting from one active version of `t1`, the committed intermediate state
has zero active versions. -/
theorem C4_intermediate_state_durable :
    activeCount dbTwoVersions "t1" = 1 ∧
    setActiveMid dbTwoVersions "t1" ≠ dbTwoVersions ∧
    activeCount (setActiveMid dbTwoVersions "t1") "t1" = 0 ∧
    setActivePromptVersion dbTwoVersions "t1" "2" =
      Except.ok (setActiveSet (setActiveMid dbTwoVersions "t1") "2" "t1") ∧
    activeCount (setActiveSet (setActiveMid dbTwoVersions "t1") "2" "t1") "t1" = 1 :=
  ⟨by decide, by decide, by decide, rfl, by decide⟩

/-- C5: when the save's Persistence Service call fails, the Version Store
(`promptTypes`) is unchanged, the session stays Open with its target and
dirty draft intact, the selection is unchanged, and only the error slot is
set. -/
theorem C5_failed_save_preserves_state (s : ClientState) (tgt : EditorTarget) (msg : String)
    (h : s.editorTarget = some tgt) :
    (handleSaveModal s false msg).promptTypes = s.promptTypes ∧
    (handleSaveModal s false msg).isEditorOpen = s.isEditorOpen ∧
    (handleSaveModal s false msg).editorTarget = s.editorTarget ∧
    (handleSaveModal s false msg).modalContent = s.modalContent ∧
    (handleSaveModal s false msg).selectedTypeId = s.selectedTypeId ∧
    (handleSaveModal s false msg).selectedVersionId = s.selectedVersionId ∧
    (handleSaveModal s false msg).error = some msg ∧
    (handleSaveModal s false msg).isSavingModal = false := by
  simp [handleSaveModal, h]

/-- Witness for C5 at a concrete dirty open session. -/
theorem C5_failed_save_preserves_state_witness :
    (handleSaveModal demoDirtyState false "boom").promptTypes = demoDirtyState.promptTypes ∧
    (handleSaveModal demoDirtyState false "boom").isEditorOpen = demoDirtyState.isEditorOpen ∧
    (handleSaveModal demoDirtyState false "boom").editorTarget = demoDirtyState.editorTarget ∧
    (handleSaveModal demoDirtyState false "boom").modalContent = demoDirtyState.modalContent ∧
    (handleSaveModal demoDirtyState false "boom").selectedTypeId = demoDirtyState.selectedTypeId ∧
    (handleSaveModal demoDirtyState false "boom").selectedVersionId =
      demoDirtyState.selectedVersionId ∧
    (handleSaveModal demoDirtyState false "boom").error = some "boom" ∧
    (handleSaveModal demoDirtyState false "boom").isSavingModal = false :=
  C5_failed_save_preserves_state demoDirtyState demoTarget "boom" rfl

/-- `updatePromptVersion` with a present non-empty `promptVersionId`
reduces to the SQL UPDATE on that id. -/
theorem updatePromptVersion_some (db : DB) (vid : String) (pid : Option String) (c : String)
    (h : (vid == "") = false) :
    updatePromptVersion db (some vid) pid c = Except.ok (sqlUpdateContent db c vid) := by
  show (if (vid == "") = true then
      (Except.error
        "Invalid arguments. Expecting { promptVersionId: string, newContent: string }." :
        Except String DB)
    else Except.ok (sqlUpdateContent db c vid)) = Except.ok (sqlUpdateContent db c vid)
  simp [h]

/-- `updatePromptVersion` with an absent `promptVersionId` and a non-empty
`promptId` reduces to the SQL UPDATE on `promptId`. -/
theorem updatePromptVersion_fallback (db : DB) (pid : String) (c : String)
    (h : (pid == "") = false) :
    updatePromptVersion db none (some pid) c = Except.ok (sqlUpdateContent db c pid) := by
  show (if (pid == "") = true then
      (Except.error
        "Invalid arguments. Expecting { promptVersionId: string, newContent: string }." :
        Except String DB)
    else Except.ok (sqlUpdateContent db c pid)) = Except.ok (sqlUpdateContent db c pid)
  simp [h]

/-- C6 as stated is false: updating a version id that matches no row
succeeds with an acknowledgement (the UPDATE affects zero rows) instead of
failing with an id-not-found error. -/
theorem C6_missing_id_counterexample :
    (∀ r ∈ dbSolo.rows, ¬ r.idStr = "7") ∧
    updatePromptVersion dbSolo (some "7") none "x" = Except.ok dbSolo :=
  ⟨by decide, rfl⟩

/-- C6 amended: an `updatePromptVersion` call whose (non-empty) version id
matches no row succeeds with an acknowledgement and leaves the database
unchanged; no id-not-found failure is produced. -/
theorem C6_missing_id_amended (db : DB) (vid c : String) (hv : ¬ vid = "")
    (hnone : ∀ r ∈ db.rows, ¬ r.idStr = vid) :
    updatePromptVersion db (some vid) none c = Except.ok db := by
  have hbeq : (vid == "") = false := beq_eq_false_iff_ne.mpr hv
  rw [updatePromptVersion_some db vid none c hbeq]
  have hrows : db.rows.map
      (fun r => if r.idStr == vid then { r with content := c } else r) = db.rows := by
    conv_rhs => rw [← List.map_id db.rows]
    apply List.map_congr_left
    intro r hr
    have hf : (r.idStr == vid) = false := beq_eq_false_iff_ne.mpr (hnone r hr)
    simp [hf]
  exact congrArg Except.ok (DB.eq_of_parts _ _ hrows rfl)

/-- Witness for the amended C6 at a concrete database. -/
theorem C6_missing_id_amended_witness :
    updatePromptVersion dbSolo (some "9") none "x" = Except.ok dbSolo :=
  C6_missing_id_amended dbSolo "9" "x" (by decide) (by decide)

/-- C8: declining the discard confirmation while the session is Open and
dirty changes nothing — neither a version switch nor a type switch takes
place, and the whole client state (session, draft, selection) is exactly
as before. -/
theorem C8_dirty_guard_decline (s : ClientState) (tgt : EditorTarget) (vid : String)
    (ty : PromptType) (hOpen : s.isEditorOpen = true) (hT : s.editorTarget = some tgt)
    (hDirty : ¬ s.modalContent = tgt.originalContent) :
    handleSelectVersion s false vid = s ∧ handleSelectType s false ty = s := by
  have hdirty : isModalDirty s = true := by
    simp [isModalDirty, hOpen, hT, hDirty]
  have hconf : confirmDiscardEditorChanges s false = false := by
    simp [confirmDiscardEditorChanges, hdirty]
  constructor
  · simp [handleSelectVersion, hconf]
  · simp [handleSelectType, hconf]

/-- Witness for C8: the dirty demo session (draft `"B"`, original `"A"`)
with a declined confirmation. -/
theorem C8_dirty_guard_decline_witness :
    handleSelectVersion demoDirtyState false "2" = demoDirtyState ∧
    handleSelectType demoDirtyState false demoClientType = demoDirtyState :=
  C8_dirty_guard_decline demoDirtyState demoTarget "2" demoClientType rfl rfl (by decide)

/-- C9 as stated is false: a request with an empty `promptVersionId` and a
valid non-empty `promptId` is rejected as invalid (the `??` fallback only
applies to a nullish `promptVersionId`, and the empty string then fails
the falsiness check), instead of being applied to `promptId`. -/
theorem C9_alias_empty_counterexample :
    "1" ∈ dbSolo.rows.map VersionRow.idStr ∧
    updatePromptVersion dbSolo (some "") (some "1") "NEW" =
      Except.error
        "Invalid arguments. Expecting { promptVersionId: string, newContent: string }." :=
  ⟨by decide, rfl⟩

/-- C9 amended: when `promptVersionId` is absent the update is applied to
the version named by `promptId`; when `promptVersionId` is present and
non-empty it wins; a present-but-empty `promptVersionId` makes the request
fail as invalid even when `promptId` is usable. -/
theorem C9_alias_amended :
    (∀ db pid c, ¬ pid = "" →
      updatePromptVersion db none (some pid) c = Except.ok (sqlUpdateContent db c pid)) ∧
    (∀ db pv pid c, ¬ pv = "" →
      updatePromptVersion db (some pv) pid c = Except.ok (sqlUpdateContent db c pv)) ∧
    (∀ db pid c, updatePromptVersion db (some "") pid c =
      Except.error
        "Invalid arguments. Expecting { promptVersionId: string, newContent: string }.") := by
  refine ⟨?_, ?_, ?_⟩
  · intro db pid c hp
    exact updatePromptVersion_fallback db pid c (beq_eq_false_iff_ne.mpr hp)
  · intro db pv pid c hp
    exact updatePromptVersion_some db pv pid c (beq_eq_false_iff_ne.mpr hp)
  · intro db pid c
    rfl

/-- Witness for the amended C9 at concrete requests. -/
theorem C9_alias_amended_witness :
    updatePromptVersion dbSolo none (some "1") "NEW" =
      Except.ok (sqlUpdateContent dbSolo "NEW" "1") ∧
    updatePromptVersion dbSolo (some "1") (some "9") "NEW" =
      Except.ok (sqlUpdateContent dbSolo "NEW" "1") ∧
    updatePromptVersion dbSolo (some "") (some "1") "x" =
      Except.error
        "Invalid arguments. Expecting { promptVersionId: string, newContent: string }." :=
  ⟨C9_alias_amended.1 dbSolo "1" "NEW" (by decide),
   C9_alias_amended.2.1 dbSolo "1" (some "9") "NEW" (by decide),
   C9_alias_amended.2.2 dbSolo (some "1") "x"⟩

/-! ## Ordering derivation -/

theorem versionLE_total (mode : VersionSortMode) :
    ∀ a b, versionLE mode a b ∨ versionLE mode b a := by
  intro a b
  unfold versionLE versionComparator
  cases mode <;> cases ha : a.isActive <;> cases hb : b.isActive <;>
    simp [ha, hb] <;> omega

theorem versionLE_trans (mode : VersionSortMode) :
    ∀ a b c, versionLE mode a b → versionLE mode b c → versionLE mode a c := by
  intro a b c
  unfold versionLE versionComparator
  cases mode <;> cases ha : a.isActive <;> cases hb : b.isActive <;> cases hc : c.isActive <;>
    simp [ha, hb, hc] <;> omega

theorem sortVersions_perm (mode : VersionSortMode) (vs : List PromptVersion) :
    (sortVersions mode vs).Perm vs :=
  List.perm_insertionSort _ vs

theorem sortVersions_sorted (mode : VersionSortMode) (vs : List PromptVersion) :
    List.Sorted (versionLE mode) (sortVersions mode vs) := by
  haveI : IsTotal PromptVersion (versionLE mode) := ⟨versionLE_total mode⟩
  haveI : IsTrans PromptVersion (versionLE mode) := ⟨versionLE_trans mode⟩
  exact List.sorted_insertionSort _ vs

theorem versionLE_active_imp (a b : PromptVersion) (h : versionLE .active a b) :
    activeFirstKey a b := by
  unfold versionLE versionComparator at h
  unfold activeFirstKey
  cases ha : a.isActive <;> cases hb : b.isActive <;>
    simp [ha, hb] at h ⊢ <;> omega

theorem versionLE_latest_imp (a b : PromptVersion) (h : versionLE .latest a b) :
    b.version ≤ a.version := by
  have h2 : (b.version : Int) - (a.version : Int) ≤ 0 := h
  omega

theorem versionLE_oldest_imp (a b : PromptVersion) (h : versionLE .oldest a b) :
    a.version ≤ b.version := by
  have h2 : (a.version : Int) - (b.version : Int) ≤ 0 := h
  omega

/-- C7: the derived order is a permutation of the input, pairwise ordered
by the mode's keys — "active-first" by active flag descending then version
descending, "latest" by version descending, "oldest" by version ascending —
and on versions [1,2,3] with version 2 active the three modes yield
[2,3,1], [3,2,1] and [1,2,3]. -/
theorem C7_ordering_derivation :
    (∀ vs, (sortVersions .active vs).Perm vs ∧
      (sortVersions .active vs).Pairwise activeFirstKey) ∧
    (∀ vs, (sortVersions .latest vs).Perm vs ∧
      (sortVersions .latest vs).Pairwise (fun a b => b.version ≤ a.version)) ∧
    (∀ vs, (sortVersions .oldest vs).Perm vs ∧
      (sortVersions .oldest vs).Pairwise (fun a b => a.version ≤ b.version)) ∧
    (filteredVersions (some demoClientType) "" .active).map PromptVersion.version = [2, 3, 1] ∧
    (filteredVersions (some demoClientType) "" .latest).map PromptVersion.version = [3, 2, 1] ∧
    (filteredVersions (some demoClientType) "" .oldest).map PromptVersion.version = [1, 2, 3] := by
  refine ⟨?_, ?_, ?_, by decide, by decide, by decide⟩
  · intro vs
    refine ⟨sortVersions_perm _ vs, ?_⟩
    exact List.Pairwise.imp (fun h => versionLE_active_imp _ _ h) (sortVersions_sorted .active vs)
  · intro vs
    refine ⟨sortVersions_perm _ vs, ?_⟩
    exact List.Pairwise.imp (fun h => versionLE_latest_imp _ _ h) (sortVersions_sorted .latest vs)
  · intro vs
    refine ⟨sortVersions_perm _ vs, ?_⟩
    exact List.Pairwise.imp (fun h => versionLE_oldest_imp _ _ h) (sortVersions_sorted .oldest vs)

/-! ## Dashboard payload -/

theorem foldl_preserves {α β : Type} (P : β → Prop) (f : β → α → β) :
    ∀ (l : List α) (b : β), P b → (∀ x ∈ l, ∀ c, P c → P (f c x)) → P (l.foldl f b) := by
  intro l
  induction l with
  | nil =>
    intro b hb _
    exact hb
  | cons x t ih =>
    intro b hb hstep
    exact ih (f b x) (hstep x (List.mem_cons_self x t) b hb)
      (fun y hy c hc => hstep y (List.mem_cons_of_mem x hy) c hc)

/-- Membership in `mapSet m t`: either the inserted (or overwriting)
entry itself, or an untouched member of `m`. -/
theorem mem_mapSet (m : List PromptType) (t : PromptType) (p : PromptType)
    (hp : p ∈ mapSet m t) : p = t ∨ p ∈ m := by
  unfold mapSet at hp
  by_cases hin : (m.any fun x => x.id == t.id) = true
  · rw [if_pos hin] at hp
    rcases List.mem_map.mp hp with ⟨x, hx, hxeq⟩
    by_cases hxid : (x.id == t.id) = true
    · rw [if_pos hxid] at hxeq
      subst hxeq
      exact Or.inl rfl
    · rw [if_neg hxid] at hxeq
      subst hxeq
      exact Or.inr hx
  · rw [if_neg hin] at hp
    rcases List.mem_append.mp hp with hp | hp
    · exact Or.inr hp
    · exact Or.inl (List.mem_singleton.mp hp)

/-- C10: every type of the `getPromptDashboardData` payload is one of the
fetched `prompt_types` rows, and every version it carries comes from a
`prompt_versions` row owned by that very type; version rows whose
`prompt_type_id` matches no fetched type appear nowhere (they are skipped,
not returned orphaned and not an error). -/
theorem C10_orphan_versions_dropped (types : List TypeRow) (db : DB) :
    ∀ pt ∈ getPromptDashboardData types db,
      pt.id ∈ types.map TypeRow.id ∧
      ∀ v ∈ pt.versions, ∃ r ∈ db.rows, r.prompt_type_id = pt.id ∧ v = payloadOfRow r := by
  intro pt hpt
  have hpt2 : pt ∈ (((List.insertionSort versionQueryLE db.rows).foldl pushVersion
      ((List.insertionSort typeQueryLE types).foldl
        (fun m row => mapSet m
          { id := row.id, title := row.name, description := row.description, versions := [] })
        [])).map fun q => { q with versions := sortVersions .active q.versions }) := hpt
  rcases List.mem_map.mp hpt2 with ⟨q, hq, hqeq⟩
  have hinv : ∀ p ∈ ((List.insertionSort versionQueryLE db.rows).foldl pushVersion
      ((List.insertionSort typeQueryLE types).foldl
        (fun m row => mapSet m
          { id := row.id, title := row.name, description := row.description, versions := [] })
        [])),
      p.id ∈ types.map TypeRow.id ∧
      ∀ v ∈ p.versions, ∃ r ∈ db.rows, r.prompt_type_id = p.id ∧ v = payloadOfRow r := by
    apply foldl_preserves
      (fun m => ∀ p ∈ m, p.id ∈ types.map TypeRow.id ∧
        ∀ v ∈ p.versions, ∃ r ∈ db.rows, r.prompt_type_id = p.id ∧ v = payloadOfRow r)
      pushVersion (List.insertionSort versionQueryLE db.rows)
    · apply foldl_preserves
        (fun m => ∀ p ∈ m, p.id ∈ types.map TypeRow.id ∧
          ∀ v ∈ p.versions, ∃ r ∈ db.rows, r.prompt_type_id = p.id ∧ v = payloadOfRow r)
        (fun m row => mapSet m
          { id := row.id, title := row.name, description := row.description, versions := [] })
        (List.insertionSort typeQueryLE types)
      · intro p hp
        cases hp
      · intro row hrow m hm p hp
        have hrowmem : row ∈ types :=
          (List.perm_insertionSort typeQueryLE types).mem_iff.mp hrow
        have hidmem : row.id ∈ types.map TypeRow.id := List.mem_map_of_mem TypeRow.id hrowmem
        rcases mem_mapSet m _ p hp with rfl | hp2
        · refine ⟨hidmem, ?_⟩
          intro v hv
          cases hv
        · exact hm p hp2
    · intro row hrow m hm p hp
      have hrowmem : row ∈ db.rows :=
        (List.perm_insertionSort versionQueryLE db.rows).mem_iff.mp hrow
      unfold pushVersion at hp
      rcases List.mem_map.mp hp with ⟨ty, hty, htyeq⟩
      by_cases htid : (ty.id == row.prompt_type_id) = true
      · rw [if_pos htid] at htyeq
        subst htyeq
        refine ⟨(hm ty hty).1, ?_⟩
        intro v hv
        rcases List.mem_append.mp hv with hv | hv
        · exact (hm ty hty).2 v hv
        · rcases List.mem_singleton.mp hv with rfl
          exact ⟨row, hrowmem, (beq_iff_eq.mp htid).symm, rfl⟩
      · rw [if_neg htid] at htyeq
        subst htyeq
        exact hm ty hty
  have hq2 := hinv q hq
  subst hqeq
  refine ⟨hq2.1, ?_⟩
  intro v hv
  have hv2 : v ∈ q.versions := (sortVersions_perm .active q.versions).mem_iff.mp hv
  exact hq2.2 v hv2

/-- Witness for C10: the payload built from one type `t1` and a database
holding one `t1` row and one orphan row of type `zz`. -/
theorem C10_orphan_versions_dropped_witness :
    demoPayloadType.id ∈ demoTypeRows.map TypeRow.id ∧
    ∀ v ∈ demoPayloadType.versions,
      ∃ r ∈ dbWithOrphan.rows,
        r.prompt_type_id = demoPayloadType.id ∧ v = payloadOfRow r :=
  C10_orphan_versions_dropped demoTypeRows dbWithOrphan demoPayloadType (by decide)

end ReunionAdmin
